import Mathlib

/-!
Shallow embedding of the geometric core of the CV-Libraries repository
(src/line.py, src/line_detection.py, src/square_detection.py).

Integer pixel coordinates are modelled by `ℤ`. Python float arithmetic on
them is modelled by exact rational arithmetic over `ℚ`: on every concrete
input considered below the float computations of the source round to the
same integers as the exact values (`int(...)` truncation is modelled by
`pyInt`). `math.sqrt` is modelled by `Real.sqrt`, `math.atan` by
`Real.arctan`, `math.degrees` by multiplication with `180 / π`. A Python
function that can raise an exception is modelled with an `Except Unit`
result; the ambient class-wide tolerance state that the source mutates is
threaded explicitly.
-/

namespace CV

/-- A 2-D integer point, as the Python endpoint tuples. -/
abbrev Pt := ℤ × ℤ

/-- Model of the `Line` class of src/line.py: the two endpoints
`self.pts[0]` and `self.pts[1]`. -/
structure PyLine where
  p0 : Pt
  p1 : Pt
deriving DecidableEq

/-- Model of Python `int(...)` applied to a number that is exactly a
rational: truncation toward zero. -/
def pyInt (q : ℚ) : ℤ := if 0 ≤ q then ⌊q⌋ else ⌈q⌉

/-- Model of `Line.slope` (src/line.py:297-306): the sentinel `100000` for
a vertical line (`x2 - x1 == 0`), otherwise the exact `(y2-y1)/(x2-x1)`. -/
def slope (L : PyLine) : ℚ :=
  if L.p1.1 - L.p0.1 = 0 then 100000
  else ((L.p1.2 - L.p0.2 : ℤ) : ℚ) / ((L.p1.1 - L.p0.1 : ℤ) : ℚ)

/-- The class-wide tolerance attributes `Line.horizontalTolerance` and
`Line.verticalTolerance` (src/line.py:148-149), threaded explicitly because
the source mutates them on the class. -/
structure Tols where
  horizontal : ℚ
  vertical : ℚ
deriving DecidableEq

/-- Default values of the two tolerances (src/line.py:148-149), both `1`. -/
def defaultTols : Tols := ⟨1, 1⟩

/-- Model of `Line.isVertical` (src/line.py:457-461):
`slope >= verticalTolerance`. -/
def isVertical (t : Tols) (L : PyLine) : Bool := t.vertical ≤ slope L

/-- Model of `Line.isHorizontal` (src/line.py:463-467):
`slope <= horizontalTolerance`. -/
def isHorizontal (t : Tols) (L : PyLine) : Bool := slope L ≤ t.horizontal

/-- Model of `Line.intercept` (src/line.py:205-235). Supplying both axes
raises (`.error`); with `y` given it returns `(status, int(x))`, with `x`
given `(status, int(y))`, and with neither argument Python falls off the end
of the function and returns `None` (`.ok none`). The status is `False` with
location `0` when the line is parallel to the queried axis. -/
def intercept (L : PyLine) (xv yv : Option ℚ) : Except Unit (Option (Bool × ℤ)) :=
  if xv.isSome ∧ yv.isSome then .error ()
  else
    let x1 : ℚ := L.p0.1
    let y1 : ℚ := L.p0.2
    let x2 : ℚ := L.p1.1
    let y2 : ℚ := L.p1.2
    match yv with
    | some y =>
        if y2 - y1 = 0 then .ok (some (false, 0))
        else .ok (some (true, pyInt ((x2 - x1) * (y - y2) / (y2 - y1) + x2)))
    | none =>
        match xv with
        | some x =>
            if x2 - x1 = 0 then .ok (some (false, 0))
            else .ok (some (true, pyInt ((y2 - y1) * (x - x2) / (x2 - x1) + y2)))
        | none => .ok none

/-- Value of `self.intercept(x=0)[1]` as read by `Line.intersect`
(src/line.py:418 and 420): the status flag is discarded there, so a vertical
line contributes the fallback location `0`. The catch-all arm is unreachable
for this argument pattern. -/
def interceptX0 (L : PyLine) : ℤ :=
  match intercept L (some 0) none with
  | .ok (some r) => r.2
  | _ => 0

/-- Value of `self.intercept(y=axis)[1]` as read by `Line.extend`
(src/line.py:269-270); the guard `y1 == y2` there makes the status `True`. -/
def interceptYval (L : PyLine) (y : ℤ) : ℤ :=
  match intercept L none (some (y : ℚ)) with
  | .ok (some r) => r.2
  | _ => 0

/-- Value of `self.intercept(x=axis)[1]` as read by `Line.extend`
(src/line.py:285-286). -/
def interceptXval (L : PyLine) (x : ℤ) : ℤ :=
  match intercept L (some (x : ℚ)) none with
  | .ok (some r) => r.2
  | _ => 0

/-- Model of `Line.intersect` (src/line.py:411-428): slope-intercept
solving with `int` truncation. Equal computed slopes (`m1 - m2` falsy) give
`(False, (None, None))`, modelled `(false, none)`. -/
def intersect (L M : PyLine) : Bool × Option Pt :=
  let m1 := slope L
  let b1 : ℚ := interceptX0 L
  let m2 := slope M
  let b2 : ℚ := interceptX0 M
  if m1 - m2 ≠ 0 then
    let x := (b2 - b1) / (m1 - m2)
    let y := m1 * x + b1
    (true, some (pyInt x, pyInt y))
  else (false, none)

/-- Model of `Line.mid` (src/line.py:330-335); Python `//` is floor
division, `Int.fdiv`. -/
def mid (L : PyLine) : Pt :=
  ((L.p1.1 + L.p0.1).fdiv 2, (L.p1.2 + L.p0.2).fdiv 2)

/-- Squared Euclidean length of a segment, an exact integer. -/
def lengthSq (L : PyLine) : ℤ :=
  (L.p1.1 - L.p0.1) ^ 2 + (L.p1.2 - L.p0.2) ^ 2

/-- Model of `Line.length` (src/line.py:337-344): `math.sqrt` of the exact
squared length. -/
noncomputable def lengthR (L : PyLine) : ℝ := Real.sqrt (lengthSq L)

/-- Target of `Line.perpDistance`: a point tuple or another line. -/
inductive PDTarget where
  | pt (p : Pt)
  | line (M : PyLine)

/-- Model of the inner `perpDistPoint` of `Line.perpDistance`
(src/line.py:436-446). The source reads

  if not (l1 and l3):
      theta = math.acos((l1**2 + l3**2 - l2**2) / (2*l1*l3))
  else: return 0
  return l1 * math.sin(theta)

so the guarded branch is taken exactly when `l1 == 0` or `l3 == 0` (the
float `sqrt` of a non-negative integer is `0.0` iff the squared distance is
`0`); there the divisor `2*l1*l3` is `0.0` and Python raises
`ZeroDivisionError` before `acos` or the final line is reached, modelled
`.error`. Every other call returns `0`. -/
def perpDistPoint (L : PyLine) (p : Pt) : Except Unit ℚ :=
  if lengthSq ⟨p, L.p0⟩ = 0 ∨ lengthSq L = 0 then .error () else .ok 0

/-- Model of `Line.perpDistance` (src/line.py:430-455): a line target is
replaced by its midpoint. -/
def perpDistance (L : PyLine) (t : PDTarget) : Except Unit ℚ :=
  match t with
  | .pt p => perpDistPoint L p
  | .line M => perpDistPoint L (mid M)

/-- Model of `Line.split` (src/line.py:346-364): a ratio outside the open
interval `(0,1)` raises; the split point truncates with `int(...)`, and the
two returned lines always run from `self.pts[0]` to the split point and from
the split point to `self.pts[1]`. -/
def split (L : PyLine) (e : ℕ) (ratio : ℚ) : Except Unit (PyLine × PyLine) :=
  if ¬(0 < ratio ∧ ratio < 1) then .error ()
  else
    let a := if e = 0 then L.p0 else L.p1
    let b := if e = 0 then L.p1 else L.p0
    let s : Pt := (pyInt ((a.1 : ℚ) + ((b.1 : ℚ) - (a.1 : ℚ)) * ratio),
                   pyInt ((a.2 : ℚ) + ((b.2 : ℚ) - (a.2 : ℚ)) * ratio))
    .ok (⟨L.p0, s⟩, ⟨s, L.p1⟩)

/-- Horizontal-axes branch of `Line.extend` (src/line.py:257-270, 294-295):
axes normalised so `axis1 < axis2`, a line parallel to them raises, an
already-spanning line is returned unchanged (with a warning), otherwise the
endpoints are recomputed; the returned order puts the `axis2` point first. -/
def extendH (L : PyLine) (axes : ℤ × ℤ) : Except Unit PyLine :=
  let a1 := if axes.1 > axes.2 then axes.2 else axes.1
  let a2 := if axes.1 > axes.2 then axes.1 else axes.2
  if L.p0.2 = L.p1.2 then .error ()
  else if (L.p0.2 = a1 ∧ L.p1.2 = a2) ∨ (L.p0.2 = a2 ∧ L.p1.2 = a1) then .ok L
  else .ok ⟨(interceptYval L a2, a2), (interceptYval L a1, a1)⟩

/-- Vertical-axes branch of `Line.extend` (src/line.py:273-286, 294-295). -/
def extendV (L : PyLine) (axes : ℤ × ℤ) : Except Unit PyLine :=
  let a1 := if axes.1 > axes.2 then axes.2 else axes.1
  let a2 := if axes.1 > axes.2 then axes.1 else axes.2
  if L.p0.1 = L.p1.1 then .error ()
  else if (L.p0.1 = a1 ∧ L.p1.1 = a2) ∨ (L.p0.1 = a2 ∧ L.p1.1 = a1) then .ok L
  else .ok ⟨(a2, interceptXval L a2), (a1, interceptXval L a1)⟩

/-- Model of `Line.extend` (src/line.py:237-295): supplying both axis
families raises; with neither, the source recurses once with the frame axes
`(0, 500)` chosen by the line's own classification. -/
def extend (t : Tols) (L : PyLine) (horizontals verticals : Option (ℤ × ℤ)) :
    Except Unit PyLine :=
  match horizontals, verticals with
  | some _, some _ => .error ()
  | some hs, none => extendH L hs
  | none, some vs => extendV L vs
  | none, none =>
      if isHorizontal t L then extendV L (0, 500) else extendH L (0, 500)

/-- Model of `Line.angle` (src/line.py:308-328) in radians: the quadrant
adjustment of `absolute_angle = abs(math.atan(self.slope()))` by the signs
of the endpoint deltas (`>= 0` in both tests). -/
noncomputable def angleRad (L : PyLine) : ℝ :=
  if 0 ≤ L.p1.1 - L.p0.1 then
    (if 0 ≤ L.p1.2 - L.p0.2 then |Real.arctan (slope L : ℝ)|
     else 2 * Real.pi - |Real.arctan (slope L : ℝ)|)
  else
    (if 0 ≤ L.p1.2 - L.p0.2 then Real.pi - |Real.arctan (slope L : ℝ)|
     else Real.pi + |Real.arctan (slope L : ℝ)|)

/-- Model of `Line.angle` with the default `rad=False`:
`math.degrees(result)`. -/
noncomputable def angleDeg (L : PyLine) : ℝ := angleRad L * (180 / Real.pi)

/-- The line with its two endpoints swapped (the reversal the claim about
`angle()` quantifies over). -/
def reverse (L : PyLine) : PyLine := ⟨L.p1, L.p0⟩

/-- Reduction of a real number modulo 360 into `[0, 360)`, the `mod` of the
angle claim. -/
noncomputable def rmod360 (x : ℝ) : ℝ := x - 360 * ⌊x / 360⌋

/-- Model of `LineDetector.__filterVerticals` (src/line_detection.py:297-308)
at its pipeline call sites, where the candidate list contains no `None`
entries (each Hough candidate is a fresh `Line`), so the `line and` guard of
the source is vacuous and the empty-list early return coincides with the
filter. -/
def filterVerticals (t : Tols) (lines : List PyLine) : List PyLine :=
  lines.filter (isVertical t)

/-- Model of `LineDetector.__filterHorizontals`
(src/line_detection.py:310-321). -/
def filterHorizontals (t : Tols) (lines : List PyLine) : List PyLine :=
  lines.filter (isHorizontal t)

/-- Model of the nested `while` loops of
`LineDetector._eliminateRedundancies` (src/line_detection.py:177-197), fused
into one tail recursion: entered with `i = 0, j = 1`, the inner loop
(`j < length`) compares entry `i` with entry `j`, removes entry `j` when the
pair's `perpDistance` is below `minLineDistance` — and still increments `j`,
so the element sliding into slot `j` is skipped — and when the inner guard
fails the outer loop advances `i` and restarts `j` at `i + 1` while
`i + 1 < length`. Python removes by object identity (`list.remove` of the
element at index `j`, all candidates being distinct objects), modelled by
`eraseIdx`. A `ZeroDivisionError` escaping `perpDistance` propagates. -/
def dedupLoop (minDist : ℚ) (i j : ℕ) (lst : List PyLine) :
    Except Unit (List PyLine) :=
  if hj : j < lst.length then
    match lst[i]?, lst[j]? with
    | some li, some lj =>
        match perpDistance li (.line lj) with
        | .error e => .error e
        | .ok d =>
            if |d| < minDist then dedupLoop minDist i (j + 1) (lst.eraseIdx j)
            else dedupLoop minDist i (j + 1) lst
    | _, _ => .ok lst
  else
    if i + 1 < lst.length then dedupLoop minDist (i + 1) (i + 2) lst
    else .ok lst
termination_by (lst.length - i, lst.length - j)
decreasing_by
· have hlen : (lst.eraseIdx j).length = lst.length - 1 :=
    List.length_eraseIdx_of_lt hj
  simp only [Prod.lex_def, hlen]
  omega
· simp only [Prod.lex_def, true_and]
  omega
· simp only [Prod.lex_def, true_and]
  omega

/-- Model of `LineDetector._eliminateRedundancies`
(src/line_detection.py:166-200). The pass saves the ambient tolerances, sets
both class tolerances to `1`, classifies the candidates, removes
near-`perpDistance` pairs within each class, and assigns the saved values
back in its last two lines; there is no `try`/`finally`, so when a
`ZeroDivisionError` from `perpDistance` propagates, those assignments never
execute and the ambient tolerances stay at `1`. The second component of the
result is the ambient tolerance state after the call. -/
def eliminateRedundancies (t : Tols) (minDist : ℚ) (lines : List PyLine) :
    Except Unit (List PyLine × List PyLine) × Tols :=
  match dedupLoop minDist 0 1 (filterVerticals ⟨1, 1⟩ lines) with
  | .error e => (.error e, ⟨1, 1⟩)
  | .ok verts2 =>
      match dedupLoop minDist 0 1 (filterHorizontals ⟨1, 1⟩ lines) with
      | .error e => (.error e, ⟨1, 1⟩)
      | .ok hors2 => (.ok (verts2, hors2), t)

/-- Accumulator loop of `LineDetector.xExtremes`
(src/line_detection.py:202-222) over the `None`-free list
`self._verticals`: a vertical line replaces the current leftmost when its
start x undercuts it by more than 10, and the current rightmost when its
start x exceeds it by more than 10 (`not leftmost` is true exactly for
`None`, a `Line` object being always truthy). -/
def xExtremesGo (t : Tols) : List PyLine → Option PyLine → Option PyLine →
    Option PyLine × Option PyLine
  | [], lm, rm => (lm, rm)
  | L :: rest, lm, rm =>
      if isVertical t L then
        xExtremesGo t rest
          (match lm with
           | none => some L
           | some cur => if L.p0.1 < cur.p0.1 - 10 then some L else some cur)
          (match rm with
           | none => some L
           | some cur => if L.p0.1 > cur.p0.1 + 10 then some L else some cur)
      else xExtremesGo t rest lm rm

/-- Model of `LineDetector.xExtremes`: `[leftmost, rightmost]`. -/
def xExtremes (t : Tols) (lines : List PyLine) :
    Option PyLine × Option PyLine :=
  xExtremesGo t lines none none

/-- Accumulator loop of `LineDetector.yExtremes`
(src/line_detection.py:224-244): topmost compares `pts[0][1]`, but
bottommost compares `pts[0][0]` — the source's documented asymmetry,
preserved as written — with the same 10-unit margin. -/
def yExtremesGo (t : Tols) : List PyLine → Option PyLine → Option PyLine →
    Option PyLine × Option PyLine
  | [], tm, bm => (tm, bm)
  | L :: rest, tm, bm =>
      if isHorizontal t L then
        yExtremesGo t rest
          (match tm with
           | none => some L
           | some cur => if L.p0.2 < cur.p0.2 - 10 then some L else some cur)
          (match bm with
           | none => some L
           | some cur => if L.p0.1 > cur.p0.1 + 10 then some L else some cur)
      else yExtremesGo t rest tm bm

/-- Model of `LineDetector.yExtremes`: `[topmost, bottommost]`. -/
def yExtremes (t : Tols) (lines : List PyLine) :
    Option PyLine × Option PyLine :=
  yExtremesGo t lines none none

/-- Chain state of `sequence_result` in the filtering section of
`LineDetector.run` (src/line_detection.py:270-291): the extremal selectors
can insert Python `None`, so entries are optional. -/
abbrev SeqResult := List (Option PyLine)

/-- Model of one step of the criterion dispatch inside `LineDetector.run`
(src/line_detection.py:280-290) acting on a `None`-free chain state, the
two selector results being flattened back into the state list. The operator
constants are `XEXTREMES = 1`, `YEXTREMES = 2`, `HORIZONTALS = 4`,
`VERTICALS = 5` (`ANGLE = 3` is declared with a TODO and never handled);
the `if`/`elif` chain has no final `else`, so any unrecognised operator
leaves `sequence_result` unchanged instead of raising. -/
def applyCriterion (t : Tols) (c : ℤ) (sr : List PyLine) : SeqResult :=
  if c = 1 then [(xExtremes t sr).1, (xExtremes t sr).2]
  else if c = 2 then [(yExtremes t sr).1, (yExtremes t sr).2]
  else if c = 5 then (filterVerticals t sr).map some
  else if c = 4 then (filterHorizontals t sr).map some
  else sr.map some

/-- Model of `SquareDetector.__Found` (src/square_detection.py:14-15): the
chained `and` is truthy iff none of the four selections is `None` (a `Line`
instance defines no `__bool__`/`__len__` and is always truthy). -/
def foundB (vp hp : Option PyLine × Option PyLine) : Bool :=
  vp.1.isSome && vp.2.isSome && hp.1.isSome && hp.2.isSome

/-- Corner contribution of one iteration of the 2-by-2 loop of
`SquareDetector.run` (src/square_detection.py:43-47): the intersection is
appended exactly when that iteration's `success` is `True`. -/
def cornerOf (r : Bool × Option Pt) : List Pt :=
  match r with
  | (true, some p) => [p]
  | _ => []

/-- Model of the reconstruction tail of `SquareDetector.run`
(src/square_detection.py:40-54): when `__Found` passes, the loop over
`verticals = [leftmost, rightmost]` and `horizontals = [topmost,
bottommost]` runs its four pairings in order — `success` is reassigned by
every iteration, so only the last pairing's flag survives — collects the
per-iteration corners, and overwrites `self.squareCorners`; otherwise
`success = False` and `self.squareCorners` keeps its previous value
`prev`. -/
def squareAssemble (vp hp : Option PyLine × Option PyLine) (prev : List Pt) :
    Bool × List Pt :=
  match vp, hp with
  | (some v0, some v1), (some h0, some h1) =>
      let r1 := intersect v0 h0
      let r2 := intersect v0 h1
      let r3 := intersect v1 h0
      let r4 := intersect v1 h1
      (r4.1, cornerOf r1 ++ cornerOf r2 ++ cornerOf r3 ++ cornerOf r4)
  | _, _ => (false, prev)

/-- Model of `SquareDetector.run` (src/square_detection.py:22-54) from the
point where the candidate segments `result` of the external detection stage
are in hand (Canny/Hough belong to the out-of-scope image stage): redundancy
elimination, extremal selection under the ambient tolerances as restored by
that pass, then the `__Found` gate and the intersection loop. `prev` is the
detector's `self.squareCorners` from before the call (initially `[]`); the
second component is the ambient tolerance state after the call. -/
def squareRun (t : Tols) (minDist : ℚ) (lines : List PyLine)
    (prev : List Pt) : Except Unit (Bool × List Pt) × Tols :=
  match eliminateRedundancies t minDist lines with
  | (.error e, t2) => (.error e, t2)
  | (.ok (verts, hors), t2) =>
      (.ok (squareAssemble (xExtremes t2 verts) (yExtremes t2 hors) prev), t2)

/-- Truncation of an integer embedded into the rationals is the integer. -/
theorem pyInt_intCast (n : ℤ) : pyInt (n : ℚ) = n := by
  unfold pyInt
  by_cases h : (0:ℚ) ≤ (n:ℚ)
  · rw [if_pos h, Int.floor_intCast]
  · rw [if_neg h, Int.ceil_intCast]

/-- Truncation computed through an exact integer value. -/
theorem pyInt_eq_of_cast (q : ℚ) (n : ℤ) (h : q = (n : ℚ)) : pyInt q = n := by
  rw [h, pyInt_intCast]

/-- The computed slope is invariant under endpoint reversal: for a vertical
line both orders yield the sentinel, otherwise numerator and denominator
both flip sign. -/
theorem slope_reverse (L : PyLine) : slope (reverse L) = slope L := by
  rcases L with ⟨⟨x0, y0⟩, ⟨x1, y1⟩⟩
  simp only [slope, reverse]
  by_cases h : x1 - x0 = 0
  · rw [if_pos (by omega : x0 - x1 = 0), if_pos h]
  · rw [if_neg (by omega : ¬ x0 - x1 = 0), if_neg h]
    rw [show ((y0 - y1 : ℤ) : ℚ) = -((y1 - y0 : ℤ) : ℚ) by push_cast; ring,
      show ((x0 - x1 : ℤ) : ℚ) = -((x1 - x0 : ℤ) : ℚ) by push_cast; ring,
      neg_div_neg_eq]

/-- Mod-360 reduction is the identity on `[0, 360)`. -/
theorem rmod360_eq_self (x : ℝ) (h0 : 0 ≤ x) (h1 : x < 360) :
    rmod360 x = x := by
  have hf : ⌊x / 360⌋ = 0 := by
    rw [Int.floor_eq_zero_iff, Set.mem_Ico]
    exact ⟨by positivity, by rw [div_lt_one (by norm_num)]; linarith⟩
  simp [rmod360, hf]

/-- Mod-360 reduction subtracts one period on `[360, 720)`. -/
theorem rmod360_shift (x : ℝ) (h0 : 360 ≤ x) (h1 : x < 720) :
    rmod360 x = x - 360 := by
  have hf : ⌊x / 360⌋ = 1 := by
    rw [Int.floor_eq_iff]
    push_cast
    constructor
    · rw [le_div_iff₀ (by norm_num)]
      linarith
    · rw [div_lt_iff₀ (by norm_num)]
      linarith
  rw [rmod360, hf]
  push_cast
  ring

/-- Degree form of `absolute_angle = abs(atan(slope))` in `Line.angle`: it
lies in `[0, 90)`, strictly below 90 because `atan` never reaches `π/2`. -/
theorem absArctanDeg_mem (m : ℝ) :
    0 ≤ |Real.arctan m| * (180 / Real.pi) ∧
    |Real.arctan m| * (180 / Real.pi) < 90 := by
  have hpi := Real.pi_pos
  refine ⟨by positivity, ?_⟩
  have h1 : |Real.arctan m| < Real.pi / 2 :=
    abs_lt.mpr ⟨Real.neg_pi_div_two_lt_arctan m, Real.arctan_lt_pi_div_two m⟩
  have h2 : (0:ℝ) < 180 / Real.pi := by positivity
  have h3 := mul_lt_mul_of_pos_right h1 h2
  have h4 : Real.pi / 2 * (180 / Real.pi) = 90 := by
    field_simp
    ring
  rw [h4] at h3
  exact h3

/-- Unit conversion constant: `π` radians are 180 degrees. -/
theorem pi_mul_deg : Real.pi * (180 / Real.pi) = 180 := by
  field_simp

/-- Unit conversion constant: `2π` radians are 360 degrees. -/
theorem two_pi_mul_deg : 2 * Real.pi * (180 / Real.pi) = 360 := by
  field_simp
  ring

/-- Quadrant case of `Line.angle` in degrees for `Δx ≥ 0, Δy ≥ 0`. -/
theorem angleDeg_pp (L : PyLine) (hx : 0 ≤ L.p1.1 - L.p0.1)
    (hy : 0 ≤ L.p1.2 - L.p0.2) :
    angleDeg L = |Real.arctan (slope L : ℝ)| * (180 / Real.pi) := by
  rw [angleDeg, angleRad, if_pos hx, if_pos hy]

/-- Quadrant case of `Line.angle` in degrees for `Δx ≥ 0, Δy < 0`. -/
theorem angleDeg_pn (L : PyLine) (hx : 0 ≤ L.p1.1 - L.p0.1)
    (hy : ¬ 0 ≤ L.p1.2 - L.p0.2) :
    angleDeg L = 360 - |Real.arctan (slope L : ℝ)| * (180 / Real.pi) := by
  rw [angleDeg, angleRad, if_pos hx, if_neg hy, sub_mul, two_pi_mul_deg]

/-- Quadrant case of `Line.angle` in degrees for `Δx < 0, Δy ≥ 0`. -/
theorem angleDeg_np (L : PyLine) (hx : ¬ 0 ≤ L.p1.1 - L.p0.1)
    (hy : 0 ≤ L.p1.2 - L.p0.2) :
    angleDeg L = 180 - |Real.arctan (slope L : ℝ)| * (180 / Real.pi) := by
  rw [angleDeg, angleRad, if_neg hx, if_pos hy, sub_mul, pi_mul_deg]

/-- Quadrant case of `Line.angle` in degrees for `Δx < 0, Δy < 0`. -/
theorem angleDeg_nn (L : PyLine) (hx : ¬ 0 ≤ L.p1.1 - L.p0.1)
    (hy : ¬ 0 ≤ L.p1.2 - L.p0.2) :
    angleDeg L = 180 + |Real.arctan (slope L : ℝ)| * (180 / Real.pi) := by
  rw [angleDeg, angleRad, if_neg hx, if_neg hy, add_mul, pi_mul_deg]

/-- A line with `Δy = 0` (and any `Δx ≠ 0`) has computed slope `0`, so its
absolute arctangent vanishes. -/
theorem absArctanDeg_of_dy_zero (L : PyLine) (hx : L.p1.1 - L.p0.1 ≠ 0)
    (hy : L.p1.2 - L.p0.2 = 0) :
    |Real.arctan (slope L : ℝ)| * (180 / Real.pi) = 0 := by
  have hs : slope L = 0 := by
    rw [slope, if_neg hx, hy]
    simp
  rw [hs]
  simp [Real.arctan_zero]

/-- A line with `Δy ≠ 0` and `Δx ≠ 0` has nonzero computed slope, so its
absolute arctangent in degrees is strictly positive. -/
theorem absArctanDeg_pos_of_dy_ne (L : PyLine) (hx : L.p1.1 - L.p0.1 ≠ 0)
    (hy : L.p1.2 - L.p0.2 ≠ 0) :
    0 < |Real.arctan (slope L : ℝ)| * (180 / Real.pi) := by
  have hs : slope L ≠ 0 := by
    rw [slope, if_neg hx]
    exact div_ne_zero (by exact_mod_cast hy) (by exact_mod_cast hx)
  have hm : ((slope L : ℚ) : ℝ) ≠ 0 := by exact_mod_cast hs
  have ha : Real.arctan ((slope L : ℚ) : ℝ) ≠ 0 :=
    fun hc => hm (Real.arctan_eq_zero_iff.mp hc)
  have hpi := Real.pi_pos
  exact mul_pos (abs_pos.mpr ha) (by positivity)

/-- An if-then-else between two filled options is filled. -/
theorem isSome_ite_some {α : Type} {c : Prop} [Decidable c] (a b : α) :
    (if c then some a else some b).isSome = true := by
  split <;> rfl

/-- The two extremal accumulators of `xExtremes` end up filled exactly when
they started filled or some input line is classified vertical; in
particular both are filled together. -/
theorem xExtremesGo_isSome (t : Tols) (l : List PyLine) :
    ∀ lm rm : Option PyLine,
      (xExtremesGo t l lm rm).1.isSome
          = (lm.isSome || l.any (isVertical t)) ∧
      (xExtremesGo t l lm rm).2.isSome
          = (rm.isSome || l.any (isVertical t)) := by
  induction l with
  | nil => intro lm rm; simp [xExtremesGo]
  | cons L rest ih =>
    intro lm rm
    by_cases h : isVertical t L
    · cases lm <;> cases rm <;>
        simp [xExtremesGo, h, ih, isSome_ite_some]
    · simp [xExtremesGo, h, ih]

/-- Analogue of `xExtremesGo_isSome` for the horizontal selector. -/
theorem yExtremesGo_isSome (t : Tols) (l : List PyLine) :
    ∀ tm bm : Option PyLine,
      (yExtremesGo t l tm bm).1.isSome
          = (tm.isSome || l.any (isHorizontal t)) ∧
      (yExtremesGo t l tm bm).2.isSome
          = (bm.isSome || l.any (isHorizontal t)) := by
  induction l with
  | nil => intro tm bm; simp [yExtremesGo]
  | cons L rest ih =>
    intro tm bm
    by_cases h : isHorizontal t L
    · cases tm <;> cases bm <;>
        simp [yExtremesGo, h, ih, isSome_ite_some]
    · simp [yExtremesGo, h, ih]

/-- Exact evaluation of `split(0, 0.5)` on a line whose endpoint differences
are even: the truncations are exact. -/
theorem split_half_eval (x0 y0 u v : ℤ) :
    split ⟨(x0, y0), (x0 + 2 * u, y0 + 2 * v)⟩ 0 (1 / 2)
      = .ok (⟨(x0, y0), (x0 + u, y0 + v)⟩,
             ⟨(x0 + u, y0 + v), (x0 + 2 * u, y0 + 2 * v)⟩) := by
  rw [split, if_neg (by norm_num)]
  simp only [if_pos rfl]
  rw [pyInt_eq_of_cast _ (x0 + u) (by push_cast; ring),
    pyInt_eq_of_cast _ (y0 + v) (by push_cast; ring)]

/-- C10: a degenerate line with equal endpoints has `x2 - x1 == 0`, so
`slope()` returns the vertical sentinel `100000`; under the default
tolerances (`verticalTolerance = 1`, `horizontalTolerance = 1`) it is
therefore classified vertical and not horizontal. -/
theorem C10_degenerate_vertical (p : Pt) :
    slope ⟨p, p⟩ = 100000 ∧
    isVertical defaultTols ⟨p, p⟩ = true ∧
    isHorizontal defaultTols ⟨p, p⟩ = false := by
  have hs : slope ⟨p, p⟩ = 100000 := by simp [slope]
  refine ⟨hs, ?_, ?_⟩ <;> simp [isVertical, isHorizontal, hs, defaultTols]

/-- C2 (code bug): `perpDistance` of the vertical segment (0,0)-(0,100) from
the point (2,50) — whose true perpendicular distance is 2 — returns `0`,
because the degenerate-case guard `if not (l1 and l3)` of the source is
inverted; and from the point (0,0), the degenerate case `l1 == 0`, it raises
`ZeroDivisionError` (the guarded branch divides by `2*l1*l3 == 0`) instead
of returning 0. -/
theorem C2_perpDistance_code_value :
    perpDistance ⟨(0, 0), (0, 100)⟩ (.pt (2, 50)) = .ok 0 ∧
    perpDistance ⟨(0, 0), (0, 100)⟩ (.pt (0, 0)) = .error () := by
  constructor <;> norm_num [perpDistance, perpDistPoint, lengthSq]

set_option maxHeartbeats 2000000 in
/-- C3 (code bug): redundancy elimination on the two vertical segments
(0,0)-(0,100) and (2,0)-(2,100) removes the second one even with
`minLineDistance = 1`, because `perpDistance` returns `0` — not their true
separation 2 — for every non-degenerate pair; the `minLineDistance = 20`
case leaves the same single survivor for the same wrong reason. -/
theorem C3_dedup_survivors_code_value :
    (eliminateRedundancies defaultTols 1
        [⟨(0, 0), (0, 100)⟩, ⟨(2, 0), (2, 100)⟩]).1
      = .ok ([⟨(0, 0), (0, 100)⟩], []) ∧
    (eliminateRedundancies defaultTols 20
        [⟨(0, 0), (0, 100)⟩, ⟨(2, 0), (2, 100)⟩]).1
      = .ok ([⟨(0, 0), (0, 100)⟩], []) := by
  constructor
  all_goals
    simp only [eliminateRedundancies]
    repeat
      rw [dedupLoop.eq_def]
      norm_num [perpDistance, perpDistPoint, lengthSq, mid,
        Int.fdiv_eq_ediv, List.eraseIdx, filterVerticals, filterHorizontals,
        isVertical, isHorizontal, slope, defaultTols]

set_option maxHeartbeats 2000000 in
/-- C1 (code bug): pairing the extremal verticals x=10 and x=90 with the
extremal horizontals y=10 and y=90 through `Line.intersect` reports success
for every pairing but produces the corners (0,10),(0,90),(0,10),(0,90) — not
(10,10),(10,90),(90,10),(90,90) — because `intersect` reads each line's
y-intercept through `intercept(x=0)` while discarding its status flag, so
both vertical lines contribute the fallback intercept 0 together with the
sentinel slope 100000. -/
theorem C1_square_corners_code_value :
    intersect ⟨(10, 0), (10, 100)⟩ ⟨(0, 10), (100, 10)⟩
      = (true, some (0, 10)) ∧
    squareAssemble
        (some ⟨(10, 0), (10, 100)⟩, some ⟨(90, 0), (90, 100)⟩)
        (some ⟨(0, 10), (100, 10)⟩, some ⟨(0, 90), (100, 90)⟩) []
      = (true, [(0, 10), (0, 90), (0, 10), (0, 90)]) := by
  constructor <;>
    norm_num [squareAssemble, intersect, interceptX0, intercept,
      slope, pyInt, cornerOf]

set_option maxHeartbeats 2000000 in
/-- C6 counterexample: called with ambient tolerances (5,5) on a candidate
set holding a degenerate (zero-length) vertical segment and a second
vertical, `_eliminateRedundancies` hits the `ZeroDivisionError` of
`perpDistance` (the degenerate line has `l3 == 0`) after having set both
class tolerances to 1, and the missing `try`/`finally` leaves them at (1,1)
instead of restoring (5,5). -/
theorem C6_counterexample :
    (eliminateRedundancies ⟨5, 5⟩ 20 [⟨(0, 0), (0, 0)⟩, ⟨(5, 0), (5, 100)⟩]).2
        ≠ (⟨5, 5⟩ : Tols) ∧
    eliminateRedundancies ⟨5, 5⟩ 20 [⟨(0, 0), (0, 0)⟩, ⟨(5, 0), (5, 100)⟩]
        = (.error (), ⟨1, 1⟩) := by
  have h : eliminateRedundancies ⟨5, 5⟩ 20
      [⟨(0, 0), (0, 0)⟩, ⟨(5, 0), (5, 100)⟩] = (.error (), ⟨1, 1⟩) := by
    simp only [eliminateRedundancies]
    repeat
      rw [dedupLoop.eq_def]
      norm_num [perpDistance, perpDistPoint, lengthSq, mid,
        Int.fdiv_eq_ediv, List.eraseIdx, filterVerticals, filterHorizontals,
        isVertical, isHorizontal, slope]
  refine ⟨?_, h⟩
  rw [h]
  intro hc
  simpa using congrArg Tols.horizontal hc

/-- C6 amended: `_eliminateRedundancies` restores the saved tolerances on
every normal return; only an exceptional exit — a `ZeroDivisionError`
escaping `perpDistance` — leaves the ambient tolerances at the dedup value
(1,1). -/
theorem C6_restore_on_normal_return (t : Tols) (minDist : ℚ)
    (lines : List PyLine) (res : List PyLine × List PyLine)
    (h : (eliminateRedundancies t minDist lines).1 = .ok res) :
    (eliminateRedundancies t minDist lines).2 = t := by
  rcases hv : dedupLoop minDist 0 1 (filterVerticals ⟨1, 1⟩ lines) with e | v2
  · simp [eliminateRedundancies, hv] at h
  · rcases hh : dedupLoop minDist 0 1 (filterHorizontals ⟨1, 1⟩ lines)
      with e2 | h2
    · simp [eliminateRedundancies, hv, hh] at h
    · simp [eliminateRedundancies, hv, hh]

/-- Witness for `C6_restore_on_normal_return` at the empty candidate list
with prior tolerances (5,5). -/
theorem C6_witness :
    (eliminateRedundancies ⟨5, 5⟩ 20 []).2 = (⟨5, 5⟩ : Tols) :=
  C6_restore_on_normal_return ⟨5, 5⟩ 20 [] ([], [])
    (by
      simp only [eliminateRedundancies, filterVerticals, filterHorizontals,
        List.filter_nil]
      repeat
        rw [dedupLoop.eq_def]
        norm_num)

/-- C9 counterexample: the unrecognised operator constant 3 (`ANGLE`,
declared with a TODO and never handled) is silently skipped by the filtering
dispatch of `LineDetector.run` — the chain state passes through unchanged
and no error of any kind is raised — refuting that an unknown filter
operator is rejected as a configuration error. -/
theorem C9_counterexample :
    applyCriterion defaultTols 3 [⟨(0, 0), (0, 100)⟩]
      = [some ⟨(0, 0), (0, 100)⟩] := by
  norm_num [applyCriterion]

/-- C9 amended: `intercept` with both axes, `extend` with both axis
families, and `split` with a ratio outside the open interval (0,1) each
raise immediately; an unknown filter operator, however, is silently ignored
by the else-less dispatch chain, leaving the chain state unchanged. -/
theorem C9_usage_errors_amended :
    (∀ (L : PyLine) (xv yv : ℚ),
        intercept L (some xv) (some yv) = .error ()) ∧
    (∀ (t : Tols) (L : PyLine) (hs vs : ℤ × ℤ),
        extend t L (some hs) (some vs) = .error ()) ∧
    (∀ (L : PyLine) (e : ℕ) (r : ℚ), ¬(0 < r ∧ r < 1) →
        split L e r = .error ()) ∧
    (∀ (t : Tols) (c : ℤ) (sr : List PyLine),
        c ≠ 1 → c ≠ 2 → c ≠ 4 → c ≠ 5 →
        applyCriterion t c sr = sr.map some) := by
  refine ⟨?_, ?_, ?_, ?_⟩
  · intro L xv yv
    rfl
  · intro t L hs vs
    rfl
  · intro L e r hr
    simp [split, hr]
  · intro t c sr h1 h2 h4 h5
    simp [applyCriterion, h1, h2, h4, h5]

/-- Witness for `C9_usage_errors_amended` at concrete usage errors and the
unknown operator constant 99. -/
theorem C9_witness :
    intercept ⟨(0, 0), (0, 100)⟩ (some 0) (some 0) = .error () ∧
    extend defaultTols ⟨(0, 0), (0, 100)⟩ (some (0, 1)) (some (0, 1))
      = .error () ∧
    split ⟨(0, 0), (0, 100)⟩ 0 2 = .error () ∧
    applyCriterion defaultTols 99 [⟨(0, 0), (0, 100)⟩]
      = [some ⟨(0, 0), (0, 100)⟩] :=
  ⟨C9_usage_errors_amended.1 _ 0 0,
   C9_usage_errors_amended.2.1 defaultTols _ (0, 1) (0, 1),
   C9_usage_errors_amended.2.2.1 _ 0 2 (by norm_num),
   C9_usage_errors_amended.2.2.2 defaultTols 99 _
     (by norm_num) (by norm_num) (by norm_num) (by norm_num)⟩

set_option maxHeartbeats 2000000 in
/-- C4 counterexample: with exactly one vertical candidate (0,0)-(0,100)
and one horizontal candidate (20,0)-(120,0), `SquareDetector.run` reports
`success = True` with four coincident corners: `xExtremes` fills the
leftmost and rightmost slots with the same single vertical (and `yExtremes`
likewise), and `__Found` does not require the selections to be distinct. -/
theorem C4_counterexample :
    filterVerticals defaultTols [⟨(0, 0), (0, 100)⟩, ⟨(20, 0), (120, 0)⟩]
      = [⟨(0, 0), (0, 100)⟩] ∧
    (squareRun defaultTols 20
        [⟨(0, 0), (0, 100)⟩, ⟨(20, 0), (120, 0)⟩] []).1
      = .ok (true, [(0, 0), (0, 0), (0, 0), (0, 0)]) := by
  constructor
  · norm_num [filterVerticals, isVertical, slope, defaultTols]
  · simp only [squareRun, eliminateRedundancies]
    repeat
      rw [dedupLoop.eq_def]
      norm_num [perpDistance, perpDistPoint, lengthSq, mid,
        Int.fdiv_eq_ediv, List.eraseIdx, filterVerticals, filterHorizontals,
        isVertical, isHorizontal, slope, defaultTols]
    norm_num [xExtremes, xExtremesGo, yExtremes, yExtremesGo,
      squareAssemble, intersect, interceptX0, intercept, slope, isVertical,
      isHorizontal, defaultTols, pyInt, cornerOf]

set_option maxHeartbeats 2000000 in
/-- C5 counterexample: in this five-segment frame all four extremal lines
exist, and the pairing of the leftmost vertical with the topmost horizontal
— both being the 45-degree segment (0,0)-(30,30), classified both vertical
and horizontal under tolerance 1 — is numerically parallel (`intersect`
fails on it); yet `SquareDetector.run` reports `success = True`, because
every loop iteration overwrites the flag and only the last pairing's outcome
survives (note the corner list has just three entries). -/
theorem C5_counterexample :
    (eliminateRedundancies defaultTols 20
        [⟨(0, 0), (30, 30)⟩, ⟨(50, 0), (50, 100)⟩, ⟨(100, 0), (100, 100)⟩,
         ⟨(0, 50), (100, 50)⟩, ⟨(20, 100), (120, 100)⟩]).1
      = .ok ([⟨(0, 0), (30, 30)⟩, ⟨(100, 0), (100, 100)⟩],
             [⟨(0, 0), (30, 30)⟩, ⟨(20, 100), (120, 100)⟩]) ∧
    xExtremes defaultTols [⟨(0, 0), (30, 30)⟩, ⟨(100, 0), (100, 100)⟩]
      = (some ⟨(0, 0), (30, 30)⟩, some ⟨(100, 0), (100, 100)⟩) ∧
    yExtremes defaultTols [⟨(0, 0), (30, 30)⟩, ⟨(20, 100), (120, 100)⟩]
      = (some ⟨(0, 0), (30, 30)⟩, some ⟨(20, 100), (120, 100)⟩) ∧
    intersect ⟨(0, 0), (30, 30)⟩ ⟨(0, 0), (30, 30)⟩ = (false, none) ∧
    (squareRun defaultTols 20
        [⟨(0, 0), (30, 30)⟩, ⟨(50, 0), (50, 100)⟩, ⟨(100, 0), (100, 100)⟩,
         ⟨(0, 50), (100, 50)⟩, ⟨(20, 100), (120, 100)⟩] []).1
      = .ok (true, [(100, 100), (0, 0), (0, 100)]) := by
  refine ⟨?_, ?_, ?_, ?_, ?_⟩
  · simp only [eliminateRedundancies]
    repeat
      rw [dedupLoop.eq_def]
      norm_num [perpDistance, perpDistPoint, lengthSq, mid,
        Int.fdiv_eq_ediv, List.eraseIdx, filterVerticals, filterHorizontals,
        isVertical, isHorizontal, slope, defaultTols]
  · norm_num [xExtremes, xExtremesGo, isVertical, slope, defaultTols]
  · norm_num [yExtremes, yExtremesGo, isHorizontal, slope, defaultTols]
  · norm_num [intersect, interceptX0, intercept, slope, pyInt]
  · simp only [squareRun, eliminateRedundancies]
    repeat
      rw [dedupLoop.eq_def]
      norm_num [perpDistance, perpDistPoint, lengthSq, mid,
        Int.fdiv_eq_ediv, List.eraseIdx, filterVerticals, filterHorizontals,
        isVertical, isHorizontal, slope, defaultTols]
    norm_num [xExtremes, xExtremesGo, yExtremes, yExtremesGo,
      squareAssemble, intersect, interceptX0, intercept, slope, isVertical,
      isHorizontal, defaultTols, pyInt, cornerOf]

/-- C4 amended: the `__Found` gate over the extremal selections holds iff at
least one input line is classified vertical and at least one horizontal:
the leftmost/rightmost (and topmost/bottommost) slots are filled together,
by the first qualifying line, and nothing requires the two selections per
axis to be distinct. -/
theorem C4_found_iff_any (t : Tols) (vs hs : List PyLine) :
    foundB (xExtremes t vs) (yExtremes t hs)
      = (vs.any (isVertical t) && hs.any (isHorizontal t)) := by
  have hx := xExtremesGo_isSome t vs none none
  have hy := yExtremesGo_isSome t hs none none
  rw [foundB, xExtremes, yExtremes, hx.1, hx.2, hy.1, hy.2]
  cases vs.any (isVertical t) <;> cases hs.any (isHorizontal t) <;> simp

/-- C5 amended: when all four extremal slots are filled, the success flag
reported by the reconstruction loop is decided solely by the last pairing,
rightmost vertical with bottommost horizontal, because every iteration
overwrites `success`; parallel earlier pairings only omit their corner. -/
theorem C5_success_eq_last_pair (v0 v1 h0 h1 : PyLine) (prev : List Pt) :
    (squareAssemble (some v0, some v1) (some h0, some h1) prev).1
      = decide (slope v1 ≠ slope h1) := by
  by_cases h : slope v1 - slope h1 = 0
  · have he : slope v1 = slope h1 := by
      have := sub_eq_zero.mp h
      exact this
    simp [squareAssemble, intersect, h, he]
  · have hne : slope v1 ≠ slope h1 := fun hc => h (by rw [hc, sub_self])
    simp [squareAssemble, intersect, h, hne]

/-- C7 counterexample: for the vertical line (0,0)-(0,1) both orientations
take the `Δx ≥ 0` branch of `angle()` (the sign test is `>= 0` and `Δx` is
`0` both ways), so the reversed angle is `360° - d` while the claim demands
`d + 180°`, where `d = degrees(atan(100000))`; equality would force
`atan(100000) = π/2`, but `atan` stays strictly below `π/2`. -/
theorem C7_counterexample :
    angleDeg (reverse ⟨(0, 0), (0, 1)⟩)
      ≠ rmod360 (angleDeg ⟨(0, 0), (0, 1)⟩ + 180) := by
  have hb := absArctanDeg_mem ((slope ⟨((0:ℤ), (0:ℤ)), ((0:ℤ), (1:ℤ))⟩ : ℚ) : ℝ)
  have hdpos : 0 < |Real.arctan ((slope ⟨((0:ℤ), (0:ℤ)), ((0:ℤ), (1:ℤ))⟩ : ℚ) : ℝ)|
      * (180 / Real.pi) := by
    have hs : slope ⟨((0:ℤ), (0:ℤ)), ((0:ℤ), (1:ℤ))⟩ = 100000 := by
      simp [slope]
    rw [hs]
    have ha : (0:ℝ) < Real.arctan ((100000:ℚ):ℝ) := by
      have h1 := Real.arctan_strictMono
        (show (0:ℝ) < ((100000:ℚ):ℝ) by norm_num)
      simpa [Real.arctan_zero] using h1
    have hpi := Real.pi_pos
    exact mul_pos (abs_pos.mpr (ne_of_gt ha)) (by positivity)
  have hL : angleDeg ⟨(0, 0), (0, 1)⟩
      = |Real.arctan ((slope ⟨((0:ℤ), (0:ℤ)), ((0:ℤ), (1:ℤ))⟩ : ℚ) : ℝ)|
          * (180 / Real.pi) :=
    angleDeg_pp _ (by norm_num) (by norm_num)
  have hR : angleDeg (reverse ⟨(0, 0), (0, 1)⟩)
      = 360 - |Real.arctan ((slope ⟨((0:ℤ), (0:ℤ)), ((0:ℤ), (1:ℤ))⟩ : ℚ) : ℝ)|
          * (180 / Real.pi) := by
    have h1 := angleDeg_pn (reverse ⟨(0, 0), (0, 1)⟩)
      (by norm_num [reverse]) (by norm_num [reverse])
    rw [slope_reverse] at h1
    exact h1
  rw [hL, hR, rmod360_eq_self _ (by linarith [hb.1]) (by linarith [hb.2])]
  intro hc
  have : |Real.arctan ((slope ⟨((0:ℤ), (0:ℤ)), ((0:ℤ), (1:ℤ))⟩ : ℚ) : ℝ)|
      * (180 / Real.pi) = 90 := by linarith
  linarith [hb.2]

/-- C7 amended: for every line whose endpoints differ in x-coordinate, the
angle of the reversed line equals the original angle plus 180 degrees
reduced modulo 360; the original claim fails only for vertical lines
(`Δx = 0`), where both orientations take the `Δx ≥ 0` quadrant branches
around the sentinel slope. -/
theorem C7_angle_reverse_amended (L : PyLine)
    (hdx : L.p1.1 - L.p0.1 ≠ 0) :
    angleDeg (reverse L) = rmod360 (angleDeg L + 180) := by
  have hsr : slope (reverse L) = slope L := slope_reverse L
  have hb := absArctanDeg_mem ((slope L : ℚ) : ℝ)
  rcases lt_or_gt_of_ne hdx with hx | hx
  · rcases lt_trichotomy (L.p1.2 - L.p0.2) 0 with hy | hy | hy
    · -- Δx < 0, Δy < 0 : angle 180 + d, reversed angle d
      have hL := angleDeg_nn L (by omega) (by omega)
      have hR := angleDeg_pp (reverse L)
        (by simp only [reverse]; omega) (by simp only [reverse]; omega)
      rw [hsr] at hR
      rw [hL, hR, show 180 + |Real.arctan ((slope L : ℚ) : ℝ)|
          * (180 / Real.pi) + 180
        = 360 + |Real.arctan ((slope L : ℚ) : ℝ)| * (180 / Real.pi) by ring,
        rmod360_shift _ (by linarith [hb.1]) (by linarith [hb.2])]
      ring
    · -- Δx < 0, Δy = 0 : slope 0, angle 180, reversed angle 0
      have hz := absArctanDeg_of_dy_zero L (by omega) hy
      have hL := angleDeg_np L (by omega) (by omega)
      have hR := angleDeg_pp (reverse L)
        (by simp only [reverse]; omega) (by simp only [reverse]; omega)
      rw [hsr] at hR
      rw [hL, hR, hz, show (180:ℝ) - 0 + 180 = 360 by ring,
        rmod360_shift _ (by norm_num) (by norm_num)]
      norm_num
    · -- Δx < 0, Δy > 0 : angle 180 - d, reversed angle 360 - d, d > 0
      have hdp := absArctanDeg_pos_of_dy_ne L (by omega) (by omega)
      have hL := angleDeg_np L (by omega) (by omega)
      have hR := angleDeg_pn (reverse L)
        (by simp only [reverse]; omega) (by simp only [reverse]; omega)
      rw [hsr] at hR
      rw [hL, hR, show (180:ℝ) - |Real.arctan ((slope L : ℚ) : ℝ)|
          * (180 / Real.pi) + 180
        = 360 - |Real.arctan ((slope L : ℚ) : ℝ)| * (180 / Real.pi) by ring,
        rmod360_eq_self _ (by linarith [hb.2]) (by linarith [hdp])]
  · rcases lt_trichotomy (L.p1.2 - L.p0.2) 0 with hy | hy | hy
    · -- Δx > 0, Δy < 0 : angle 360 - d, reversed angle 180 - d
      have hL := angleDeg_pn L (by omega) (by omega)
      have hR := angleDeg_np (reverse L)
        (by simp only [reverse]; omega) (by simp only [reverse]; omega)
      rw [hsr] at hR
      rw [hL, hR, show (360:ℝ) - |Real.arctan ((slope L : ℚ) : ℝ)|
          * (180 / Real.pi) + 180
        = 540 - |Real.arctan ((slope L : ℚ) : ℝ)| * (180 / Real.pi) by ring,
        rmod360_shift _ (by linarith [hb.2]) (by linarith [hb.1])]
      ring
    · -- Δx > 0, Δy = 0 : slope 0, angle 0, reversed angle 180
      have hz := absArctanDeg_of_dy_zero L (by omega) hy
      have hL := angleDeg_pp L (by omega) (by omega)
      have hR := angleDeg_np (reverse L)
        (by simp only [reverse]; omega) (by simp only [reverse]; omega)
      rw [hsr] at hR
      rw [hL, hR, hz, show (0:ℝ) + 180 = 180 by ring,
        rmod360_eq_self _ (by norm_num) (by norm_num)]
      norm_num
    · -- Δx > 0, Δy > 0 : angle d, reversed angle 180 + d
      have hL := angleDeg_pp L (by omega) (by omega)
      have hR := angleDeg_nn (reverse L)
        (by simp only [reverse]; omega) (by simp only [reverse]; omega)
      rw [hsr] at hR
      rw [hL, hR,
        rmod360_eq_self _ (by linarith [hb.1]) (by linarith [hb.2])]
      ring

/-- Witness for `C7_angle_reverse_amended` at the diagonal line
(0,0)-(1,1). -/
theorem C7_witness :
    angleDeg (reverse ⟨(0, 0), (1, 1)⟩)
      = rmod360 (angleDeg ⟨(0, 0), (1, 1)⟩ + 180) :=
  C7_angle_reverse_amended ⟨(0, 0), (1, 1)⟩ (by decide)

/-- C8 counterexample: splitting (0,0)-(1,2) at ratio one half truncates
the split point to (0,1), a point off the segment, so the two half-lengths
sum to `1 + sqrt 2`, strictly more than the original length `sqrt 5`; the
conjunction of the claim already fails on its length clause (the shared
point here does equal `mid()`). -/
theorem C8_counterexample :
    split ⟨(0, 0), (1, 2)⟩ 0 (1 / 2)
      = .ok (⟨(0, 0), (0, 1)⟩, ⟨(0, 1), (1, 2)⟩) ∧
    lengthR ⟨(0, 0), (0, 1)⟩ + lengthR ⟨(0, 1), (1, 2)⟩
      ≠ lengthR ⟨(0, 0), (1, 2)⟩ := by
  constructor
  · norm_num [split, pyInt]
  · have h1 : lengthR ⟨(0, 0), (0, 1)⟩ = 1 := by
      rw [lengthR, show lengthSq ⟨((0:ℤ), (0:ℤ)), ((0:ℤ), (1:ℤ))⟩ = 1 by
        rw [lengthSq]; norm_num]
      norm_num
    have h2 : lengthR ⟨(0, 1), (1, 2)⟩ = Real.sqrt 2 := by
      rw [lengthR, show lengthSq ⟨((0:ℤ), (1:ℤ)), ((1:ℤ), (2:ℤ))⟩ = 2 by
        rw [lengthSq]; norm_num]
      norm_num
    have h5 : lengthR ⟨(0, 0), (1, 2)⟩ = Real.sqrt 5 := by
      rw [lengthR, show lengthSq ⟨((0:ℤ), (0:ℤ)), ((1:ℤ), (2:ℤ))⟩ = 5 by
        rw [lengthSq]; norm_num]
      norm_num
    rw [h1, h2, h5]
    have hlt : Real.sqrt 5 < 1 + Real.sqrt 2 := by
      have h2g : (1:ℝ) < Real.sqrt 2 := by
        rw [show (1:ℝ) = Real.sqrt 1 from (Real.sqrt_one).symm]
        exact Real.sqrt_lt_sqrt (by norm_num) (by norm_num)
      rw [Real.sqrt_lt' (by positivity)]
      nlinarith [Real.sq_sqrt (show (0:ℝ) ≤ 2 by norm_num)]
    exact ne_of_gt hlt

/-- C8 amended: for a line with distinct endpoints whose coordinate
differences are both even, the ratio-one-half split point is computed
exactly, so the two pieces share it, it equals `mid()`, and the two lengths
sum exactly to the original length. -/
theorem C8_split_half_amended (L : PyLine)
    (hdx : (2:ℤ) ∣ (L.p1.1 - L.p0.1)) (hdy : (2:ℤ) ∣ (L.p1.2 - L.p0.2))
    (hne : L.p0 ≠ L.p1) :
    ∃ s1 s2 : PyLine, split L 0 (1 / 2) = .ok (s1, s2) ∧
      s1.p1 = s2.p0 ∧ s1.p1 = mid L ∧
      lengthR s1 + lengthR s2 = lengthR L := by
  obtain ⟨⟨x0, y0⟩, ⟨x1, y1⟩⟩ := L
  obtain ⟨u, hu⟩ := hdx
  obtain ⟨v, hv⟩ := hdy
  simp only at hu hv
  have hx1 : x1 = x0 + 2 * u := by omega
  have hy1 : y1 = y0 + 2 * v := by omega
  subst hx1
  subst hy1
  refine ⟨⟨(x0, y0), (x0 + u, y0 + v)⟩,
    ⟨(x0 + u, y0 + v), (x0 + 2 * u, y0 + 2 * v)⟩,
    split_half_eval x0 y0 u v, rfl, ?_, ?_⟩
  · have m1 : (x0 + 2 * u + x0).fdiv 2 = x0 + u := by
      rw [show x0 + 2 * u + x0 = 2 * (x0 + u) by ring,
        Int.mul_fdiv_cancel_left _ (by norm_num)]
    have m2 : (y0 + 2 * v + y0).fdiv 2 = y0 + v := by
      rw [show y0 + 2 * v + y0 = 2 * (y0 + v) by ring,
        Int.mul_fdiv_cancel_left _ (by norm_num)]
    simp [mid, m1, m2]
  · have e1 : lengthSq ⟨(x0, y0), (x0 + u, y0 + v)⟩ = u ^ 2 + v ^ 2 := by
      rw [lengthSq]
      ring
    have e2 : lengthSq ⟨(x0 + u, y0 + v), (x0 + 2 * u, y0 + 2 * v)⟩
        = u ^ 2 + v ^ 2 := by
      rw [lengthSq]
      ring
    have e3 : lengthSq ⟨(x0, y0), (x0 + 2 * u, y0 + 2 * v)⟩
        = 4 * (u ^ 2 + v ^ 2) := by
      rw [lengthSq]
      ring
    rw [lengthR, lengthR, lengthR, e1, e2, e3]
    have hc : (0:ℝ) ≤ ((u ^ 2 + v ^ 2 : ℤ) : ℝ) := by positivity
    rw [show (((4 * (u ^ 2 + v ^ 2) : ℤ)) : ℝ)
        = 4 * ((u ^ 2 + v ^ 2 : ℤ) : ℝ) by push_cast; ring,
      Real.sqrt_mul (by norm_num : (0:ℝ) ≤ 4) _,
      show (4:ℝ) = 2 ^ 2 by norm_num,
      Real.sqrt_sq (by norm_num : (0:ℝ) ≤ 2)]
    ring

/-- Witness for `C8_split_half_amended` at the line (0,0)-(2,4), whose
coordinate differences 2 and 4 are even. -/
theorem C8_witness :
    ∃ s1 s2 : PyLine, split ⟨(0, 0), (2, 4)⟩ 0 (1 / 2) = .ok (s1, s2) ∧
      s1.p1 = s2.p0 ∧ s1.p1 = mid ⟨(0, 0), (2, 4)⟩ ∧
      lengthR s1 + lengthR s2 = lengthR ⟨(0, 0), (2, 4)⟩ :=
  C8_split_half_amended ⟨(0, 0), (2, 4)⟩ (by decide) (by decide) (by decide)

end CV
